import Mathlib

/-!
Verification of the retrieval-and-routing core of the RAG service
(`src/api/rag.py`): intent classification, multi-collection retrieval with
score fusion, the grounding-mode decision, the conversation-summary gates,
and the request handler's credential cleanup.

Queries and chunk texts are modelled as `List Char` (Python `str`), distances
and relevance scores as `ℚ` (Python floats), and the external FAISS
collection store as explicit data: a collection is either absent (missing
index / failed load) or a search function that may itself fail (`none`) or
return a list of (chunk, distance) pairs.
-/

namespace Rag

/-- A retrieved chunk (langchain `Document`): page content plus the
source/file metadata the handler reads back out. -/
structure Document where
  page_content : List Char
  source : String
  file : String

/-- A loaded vector store (`FAISS` object as `retrieve` uses it):
`search q k` models `similarity_search_with_score(q, k=k)`, returning `none`
when the underlying call raises. -/
structure VS where
  search : List Char → Nat → Option (List (Document × ℚ))

/-- The collection store: `load_vs "nec"` / `load_vs "wattmonk"` give
`none` when the index directory is missing or `FAISS.load_local` raises. -/
structure Store where
  nec : Option VS
  wattmonk : Option VS

/-- The regulatory-domain keyword list of `classify_intent` (line 45). -/
def nec_keywords : List (List Char) :=
  [" nec ".toList, "national electrical code".toList, "nfpa 70".toList, "article ".toList]

/-- The organization/service keyword list of `classify_intent` (line 47). -/
def wattmonk_keywords : List (List Char) :=
  ["wattmonk".toList, "policy".toList, "sla".toList, "pricing".toList,
   "services".toList, "turnaround".toList]

/-- Embeds `classify_intent` (rag.py lines 43-49): lowercase the query, return
`"nec"` on any regulatory keyword, else `"wattmonk"` on any
organization/service keyword, else `"general"`. -/
def classify_intent (q : List Char) : String :=
  let s := q.map Char.toLower
  if nec_keywords.any (fun k => decide (k <:+: s)) then "nec"
  else if wattmonk_keywords.any (fun k => decide (k <:+: s)) then "wattmonk"
  else "general"

/-- The pool-assembly prefix of `retrieve` (lines 66-77): which loaded
collections are searched for a given intent hint. -/
def pools (hint : String) (st : Store) : List VS :=
  if hint = "nec" then st.nec.toList
  else if hint = "wattmonk" then st.wattmonk.toList
  else st.nec.toList ++ st.wattmonk.toList

/-- The score transform of `retrieve` line 97: distance `d` to relevance
`1 / (1 + d)`. -/
def score (d : ℚ) : ℚ := 1 / (1 + d)

/-- Embeds `retrieve` (rag.py lines 65-98): search each selected collection for
`k*2` candidates (a raising search is skipped), concatenate, sort ascending
by distance, keep the first `k`, and transform kept distances to scores. -/
def retrieve (query : List Char) (hint : String) (k : Nat) (st : Store) :
    List Document × List ℚ :=
  let pls := pools hint st
  if pls.isEmpty then ([], [])
  else
    let candidates := pls.flatMap fun vs => (vs.search query (k * 2)).getD []
    if candidates.isEmpty then ([], [])
    else
      let chosen := (candidates.mergeSort fun a b => decide (a.2 ≤ b.2)).take k
      (chosen.map Prod.fst, chosen.map fun p => score p.2)

/-- Embeds `max(scores) if scores else 0.0` (rag.py line 102). -/
def max_s (scores : List ℚ) : ℚ :=
  match scores with
  | [] => 0
  | x :: xs => xs.foldl max x

/-- Embeds `decide_mode` (rag.py lines 101-107): `"rag"` when a topical intent's
best score exceeds 0.25, or when the best score exceeds 0.7; else
`"general"`. -/
def decide_mode (scores : List ℚ) (intent : String) : String :=
  if (intent = "nec" ∨ intent = "wattmonk") ∧ max_s scores > 1 / 4 then "rag"
  else if max_s scores > 7 / 10 then "rag"
  else "general"

-- ----------------------- helper lemmas -----------------------

lemma decide_mode_nil (intent : String) : decide_mode [] intent = "general" := by
  have h4 : ¬ (max_s [] > 1 / 4) := by norm_num [max_s]
  have h7 : ¬ (max_s [] > 7 / 10) := by norm_num [max_s]
  simp only [decide_mode, h4, and_false, if_false, h7]

lemma retrieve_eq_nil_of_searches_nil (query : List Char) (hint : String) (k : Nat)
    (st : Store) (h : ∀ vs ∈ pools hint st, (vs.search query (k * 2)).getD [] = []) :
    retrieve query hint k st = ([], []) := by
  unfold retrieve
  by_cases hp : (pools hint st).isEmpty
  · simp [hp]
  · have hnil : (pools hint st).flatMap (fun vs => (vs.search query (k * 2)).getD []) = [] := by
      rw [List.eq_nil_iff_forall_not_mem]
      intro x hx
      rcases List.mem_flatMap.mp hx with ⟨vs, hvs, hxv⟩
      rw [h vs hvs] at hxv
      exact (List.not_mem_nil x) hxv
    simp [hp, hnil]

-- ----------------------- C1 -----------------------

/-- Claim C1: any query containing a regulatory keyword — an element of the
classifier's regulatory list occurring, case-insensitively, as a substring
of the query — is classified `"nec"` (topic_a), whatever the casing and the
surrounding text, and regardless of any organization/service keywords also
present (the regulatory set is checked first). -/
theorem classify_intent_regulatory (q kw m : List Char)
    (hk : kw ∈ nec_keywords) (hcase : m.map Char.toLower = kw) (hsub : m <:+: q) :
    classify_intent q = "nec" := by
  have hinf : kw <:+: q.map Char.toLower := by
    rw [← hcase]
    exact hsub.map Char.toLower
  have hany : nec_keywords.any (fun k => decide (k <:+: q.map Char.toLower)) = true :=
    List.any_eq_true.mpr ⟨kw, hk, decide_eq_true hinf⟩
  simp only [classify_intent, hany, if_true]

/-- Witness for C1 at a concrete query that contains the regulatory keyword
`"nfpa 70"` in upper case and the organization keyword `"pricing"`. -/
theorem classify_intent_regulatory_witness :
    classify_intent "Check NFPA 70 pricing".toList = "nec" :=
  classify_intent_regulatory "Check NFPA 70 pricing".toList "nfpa 70".toList
    "NFPA 70".toList (by decide) (by decide) (by decide)

-- ----------------------- C2 -----------------------

/-- Claim C2: `decide_mode` returns `"rag"` (grounded) exactly when the
maximum score strictly exceeds the applicable threshold — 1/4 for the
topical intents `"nec"`/`"wattmonk"`, 7/10 otherwise; the maximum of an
empty score list is 0, and empty scores always give `"general"`
(ungrounded), as does a maximum exactly at the threshold (strict `>`). -/
theorem decide_mode_threshold (scores : List ℚ) (intent : String) :
    decide_mode scores intent =
      (if max_s scores > (if intent = "nec" ∨ intent = "wattmonk" then (1 : ℚ) / 4 else 7 / 10)
       then "rag" else "general")
    ∧ max_s [] = 0 ∧ decide_mode [] intent = "general" := by
  refine ⟨?_, rfl, decide_mode_nil intent⟩
  by_cases h1 : intent = "nec" ∨ intent = "wattmonk"
  · by_cases h2 : max_s scores > 1 / 4
    · have h2i : (4 : ℚ)⁻¹ < max_s scores := by simpa [one_div] using h2
      simp [decide_mode, h1, h2, h2i]
    · have h3 : ¬ (max_s scores > 7 / 10) := by
        push_neg at h2 ⊢
        have : (1 : ℚ) / 4 ≤ 7 / 10 := by norm_num
        linarith
      simp [decide_mode, h1, h2, h3]
  · by_cases h2 : max_s scores > 7 / 10 <;> simp [decide_mode, h1, h2]

-- ----------------------- C3 -----------------------

/-- Modelled from the claim wording (C3 / spec §4.2): select collections by
intent (`topic_a` = `"nec"`: only the topic-A collection; `topic_b` =
`"wattmonk"`: only the topic-B collection; otherwise both), request `2k`
nearest neighbours from each selected available collection, concatenate all
per-collection (chunk, distance) pairs into one candidate list, sort it
ascending by distance globally across collections, keep the first `k`, and
report the kept chunks with their transformed scores. -/
def retrieveSpec (query : List Char) (intent : String) (k : Nat) (st : Store) :
    List Document × List ℚ :=
  let selected : List VS :=
    if intent = "nec" then st.nec.toList
    else if intent = "wattmonk" then st.wattmonk.toList
    else st.nec.toList ++ st.wattmonk.toList
  let candidates := selected.flatMap fun vs => (vs.search query (2 * k)).getD []
  let ranked := (candidates.mergeSort fun a b => decide (a.2 ≤ b.2)).take k
  (ranked.map Prod.fst, ranked.map fun p => score p.2)

/-- Claim C3: `retrieve` implements exactly the selection/fusion procedure
the spec describes — per-intent collection selection, `2k` neighbours per
selected available collection, global ascending sort by distance over the
concatenated candidates, first `k` kept. -/
theorem retrieve_eq_retrieveSpec (query : List Char) (intent : String) (k : Nat)
    (st : Store) : retrieve query intent k st = retrieveSpec query intent k st := by
  have hsel : (if intent = "nec" then st.nec.toList
      else if intent = "wattmonk" then st.wattmonk.toList
      else st.nec.toList ++ st.wattmonk.toList) = pools intent st := rfl
  unfold retrieve retrieveSpec
  rw [hsel, Nat.mul_comm 2 k]
  by_cases hp : (pools intent st).isEmpty
  · have hpe : pools intent st = [] := List.isEmpty_iff.mp hp
    simp [hpe]
  · by_cases hc :
      ((pools intent st).flatMap fun vs => (vs.search query (k * 2)).getD []).isEmpty
    · have hce : ((pools intent st).flatMap fun vs => (vs.search query (k * 2)).getD [])
          = [] := List.isEmpty_iff.mp hc
      simp [hp, hce]
    · simp [hp, hc]

-- ----------------------- C5 -----------------------

/-- Claim C5 (amended): the score transform `d ↦ 1/(1+d)` is strictly
decreasing on distances greater than −1 — in particular on every
non-negative distance pair `d1 < d2` it gives `score d1 > score d2` — and
`score 0 = 1` exactly. -/
theorem score_strict_anti :
    (∀ d1 d2 : ℚ, -1 < d1 → d1 < d2 → score d2 < score d1) ∧ score (0 : ℚ) = 1 := by
  constructor
  · intro d1 d2 h1 h12
    have hpos : 0 < 1 + d1 := by linarith
    have hlt : 1 + d1 < 1 + d2 := by linarith
    simpa [score] using one_div_lt_one_div_of_lt hpos hlt
  · norm_num [score]

/-- Witness for C5 at the concrete distances 0 < 2. -/
theorem score_strict_anti_witness : score 2 < score 0 ∧ score (0 : ℚ) = 1 :=
  ⟨score_strict_anti.1 0 2 (by norm_num) (by norm_num), score_strict_anti.2⟩

/-- Claim C5 counterexample: at the distances −2 < 0 the transform is not
decreasing — `score (−2) = −1 < 1 = score 0` — so the claim's unqualified
"for all distances `d1 < d2`, `score d1 > score d2`" fails below −1. -/
theorem score_not_anti_below_neg_one : (-2 : ℚ) < 0 ∧ ¬ score (-2) > score 0 := by
  constructor
  · norm_num
  · norm_num [score]

-- ----------------------- C10 -----------------------

/-- Claim C10: the two sequences `retrieve` returns always have the same
length — as many scores as documents — in every branch, including the
empty-pool and empty-candidate cases. -/
theorem retrieve_lengths_eq (query : List Char) (hint : String) (k : Nat) (st : Store) :
    (retrieve query hint k st).1.length = (retrieve query hint k st).2.length := by
  unfold retrieve
  by_cases hp : (pools hint st).isEmpty
  · simp [hp]
  · by_cases hc :
      ((pools hint st).flatMap fun vs => (vs.search query (k * 2)).getD []).isEmpty
    · simp [hp, hc]
    · simp [hp, hc]

-- ----------------------- C4 -----------------------

lemma sorted_take_pairs (cands : List (Document × ℚ)) (k : Nat) :
    ((cands.mergeSort fun a b => decide (a.2 ≤ b.2)).take k).Pairwise
      (fun a b => a.2 ≤ b.2) := by
  have htrans : ∀ a b c : Document × ℚ, decide (a.2 ≤ b.2) = true →
      decide (b.2 ≤ c.2) = true → decide (a.2 ≤ c.2) = true := by
    intro a b c h1 h2
    simp only [decide_eq_true_eq] at h1 h2 ⊢
    exact le_trans h1 h2
  have htotal : ∀ a b : Document × ℚ,
      (decide (a.2 ≤ b.2) || decide (b.2 ≤ a.2)) = true := by
    intro a b
    simp [le_total]
  have hs := List.sorted_mergeSort htrans htotal cands
  have hs2 : (cands.mergeSort fun a b => decide (a.2 ≤ b.2)).Pairwise
      (fun a b => a.2 ≤ b.2) := hs.imp (by intro a b hab; simpa using hab)
  exact hs2.sublist (List.take_sublist k _)

lemma mem_of_mem_take_mergeSort {cands : List (Document × ℚ)} {k : Nat}
    {x : Document × ℚ}
    (hx : x ∈ (cands.mergeSort fun a b => decide (a.2 ≤ b.2)).take k) : x ∈ cands :=
  (List.mergeSort_perm cands _).subset ((List.take_sublist k _).subset hx)

/-- Claim C4 (amended): `retrieve` never returns more than `k` documents,
for any candidate set whatsoever; and whenever every candidate distance the
collections return exceeds −1 — in particular for the non-negative
distances a FAISS index produces — the returned score sequence is
monotonically non-increasing in rank order. -/
theorem retrieve_topk_and_mono (query : List Char) (hint : String) (k : Nat)
    (st : Store) :
    (retrieve query hint k st).1.length ≤ k ∧
      ((∀ vs ∈ pools hint st, ∀ c ∈ (vs.search query (k * 2)).getD [],
          (-1 : ℚ) < c.2) →
        (retrieve query hint k st).2.Pairwise (fun a b => b ≤ a)) := by
  constructor
  · unfold retrieve
    by_cases hp : (pools hint st).isEmpty
    · simp [hp]
    · by_cases hc :
        ((pools hint st).flatMap fun vs => (vs.search query (k * 2)).getD []).isEmpty
      · simp [hp, hc]
      · simp only [hp, hc, Bool.false_eq_true, if_false]
        simp [List.length_take]
  · intro h
    have hneg : ∀ c ∈ (pools hint st).flatMap
        (fun vs => (vs.search query (k * 2)).getD []), (-1 : ℚ) < c.2 := by
      intro c hc
      rcases List.mem_flatMap.mp hc with ⟨vs, hvs, hcv⟩
      exact h vs hvs c hcv
    unfold retrieve
    by_cases hp : (pools hint st).isEmpty
    · simp [hp]
    · by_cases hc :
        ((pools hint st).flatMap fun vs => (vs.search query (k * 2)).getD []).isEmpty
      · simp [hp, hc]
      · simp only [hp, hc, Bool.false_eq_true, if_false]
        rw [List.pairwise_map]
        refine (sorted_take_pairs _ k).imp_of_mem ?_
        intro a b ha hb hab
        have h_a : (-1 : ℚ) < a.2 := hneg a (mem_of_mem_take_mergeSort ha)
        have hpos : 0 < 1 + a.2 := by linarith
        have hle : 1 + a.2 ≤ 1 + b.2 := by linarith
        simpa [score] using one_div_le_one_div_of_le hpos hle

/-- A chunk used in concrete stores. -/
def docA : Document := ⟨"a".toList, "srcA", ""⟩

/-- A second chunk used in concrete stores. -/
def docB : Document := ⟨"b".toList, "srcB", ""⟩

/-- A collection whose search reports the (legal, real-valued) distances
−2 and 0. -/
def vsNeg : VS := ⟨fun _ _ => some [(docA, -2), (docB, 0)]⟩

/-- A store holding only the topic-A collection `vsNeg`. -/
def stNeg : Store := ⟨some vsNeg, none⟩

/-- Claim C4 counterexample: on a candidate set with the real-valued
distances −2 and 0, `retrieve` returns the scores `[−1, 1]`, which are
strictly increasing — not non-increasing — so the claim's "for any
real-valued distances" fails (the transform `1/(1+d)` flips order below
−1). -/
theorem retrieve_scores_not_mono :
    ¬ (retrieve [] "nec" 2 stNeg).2.Pairwise (fun a b => b ≤ a) := by
  have hval : (retrieve [] "nec" 2 stNeg).2 = [-1, 1] := by
    norm_num [retrieve, pools, stNeg, vsNeg, score, List.mergeSort]
  rw [hval]
  intro hcontra
  have := (List.pairwise_cons.mp hcontra).1 1 (by simp)
  norm_num at this

/-- A collection whose search reports the non-negative distances 1 and 0. -/
def vsPos : VS := ⟨fun _ _ => some [(docA, 1), (docB, 0)]⟩

/-- A store holding only the topic-A collection `vsPos`. -/
def stPos : Store := ⟨some vsPos, none⟩

/-- Witness for C4 at a concrete store with non-negative distances: the
unconditional length bound, and the monotonicity conclusion with its
distance hypothesis discharged at `stPos`. -/
theorem retrieve_topk_and_mono_witness :
    (retrieve [] "nec" 1 stPos).1.length ≤ 1 ∧
      (retrieve [] "nec" 1 stPos).2.Pairwise (fun a b => b ≤ a) :=
  ⟨(retrieve_topk_and_mono [] "nec" 1 stPos).1,
    (retrieve_topk_and_mono [] "nec" 1 stPos).2 (by
      intro vs hvs c hc
      have hv : vs = vsPos := by simpa [pools, stPos] using hvs
      subst hv
      have hc2 : c ∈ [(docA, (1 : ℚ)), (docB, 0)] := by simpa [vsPos] using hc
      rcases List.mem_cons.mp hc2 with h1 | h2
      · rw [h1]; norm_num
      · rcases List.mem_cons.mp h2 with h3 | h4
        · rw [h3]; norm_num
        · exact absurd h4 (List.not_mem_nil c))⟩

-- ----------------------- C6 -----------------------

/-- Claim C6: collection failures never escape `retrieve` — a missing or
unloadable collection is not in the pool, a raising search contributes an
empty candidate list — and when every selected collection is unavailable or
every search fails, `retrieve` returns empty document and score sequences,
on which `decide_mode` yields `"general"` (ungrounded). -/
theorem retrieve_unavailable (query : List Char) (hint : String) (k : Nat) (st : Store)
    (h : ∀ vs ∈ pools hint st, (vs.search query (k * 2)).getD [] = []) :
    retrieve query hint k st = ([], []) ∧ decide_mode [] hint = "general" :=
  ⟨retrieve_eq_nil_of_searches_nil query hint k st h, decide_mode_nil hint⟩

/-- A collection whose every search raises (models a caught exception). -/
def vsFail : VS := ⟨fun _ _ => none⟩

/-- A store in which both collections load but every search raises. -/
def stFail : Store := ⟨some vsFail, some vsFail⟩

/-- Witness for C6: both collections present but every search failing. -/
theorem retrieve_unavailable_witness :
    retrieve [] "general" 6 stFail = ([], []) ∧ decide_mode [] "general" = "general" :=
  retrieve_unavailable [] "general" 6 stFail (by
    intro vs hvs
    have hv : vs = vsFail := by simpa [pools, stFail] using hvs
    subst hv
    rfl)

-- ----------------------- pipeline and handler -----------------------

/-- A chat message `{role, content}`. -/
structure Msg where
  role : String
  content : List Char
deriving DecidableEq

/-- Embeds `summarize_history` (rag.py lines 112-129), instrumented: the second
component records whether the external model call was made. `invokeResult`
models `model.invoke(prompt)`: `none` when the call raises, otherwise the
reply's content (with Python's `or ''` fallback already folded into the
string). -/
def summarize_history (enabled : Bool) (key : Option String) (messages : List Msg)
    (invokeResult : Option String) : String × Bool :=
  if enabled = false then ("", false)
  else if messages = [] ∨ key = none then ("", false)
  else if messages.length % 6 ≠ 0 then ("", false)
  else
    match invokeResult with
    | none => ("", true)
    | some out => (out, true)

/-- The pipeline state dict threaded through `build_graph`'s two stages. -/
structure GState where
  query : List Char
  intent : String
  docs : List Document
  scores : List ℚ
  mode : String

/-- Embeds `_graph.invoke` (rag.py lines 133-165): the `start` stage classifies the
query, the `retrieve` stage retrieves with the default `k = 6` and decides
the mode. -/
def graph_invoke (query : List Char) (st : Store) : GState :=
  let intent := classify_intent query
  let r := retrieve query intent 6 st
  { query := query, intent := intent, docs := r.1, scores := r.2,
    mode := decide_mode r.2 intent }

/-- Embeds `get_key` (rag.py lines 38-39): the request override when set, else the
environment key. -/
def get_key (override env : Option String) : Option String :=
  match override with
  | some k => some k
  | none => env

/-- A parsed request body; `apiKey = none` models both an absent field and
the falsy-to-`None` coercion `data.get("apiKey") or None`. -/
structure Body where
  apiKey : Option String
  messages : List Msg
  query : List Char

/-- One element of the shaped `docs` array of the response (lines 188-195). -/
structure OutDoc where
  id : Nat
  text : List Char
  source : String
  file : String
  score : ℚ

/-- The handler's possible responses: the CORS preflight response, a success
payload, or the JSON error payload of the `except` branch. -/
inductive HResp where
  | options
  | ok (intent : String) (mode : String) (docs : List OutDoc) (memory_summary : String)
  | err (msg : String)

/-- The response-shaping loop (lines 187-195): 1-indexed ids, per-index
score with a 0.0 fallback past the end of `scores`. -/
def shape (docs : List Document) (scores : List ℚ) : List OutDoc :=
  docs.enum.map fun p =>
    ⟨p.1 + 1, p.2.page_content, p.2.source, p.2.file, scores.getD p.1 0⟩

/-- The `try` body of `handler` (lines 172-203), returning the response
together with the value `KEY_OVERRIDE` holds on leaving the block;
`rawBody = none` models a body `json.loads` rejects, reported through
`Except.error` to the `except` branch. -/
def handler_try (method : String) (rawBody : Option Body) (st : Store)
    (ov0 envKey : Option String) (memEnabled : Bool) (invokeResult : Option String) :
    Except String (HResp × Option String) :=
  if method = "OPTIONS" then .ok (.options, ov0)
  else
    match rawBody with
    | none => .error "malformed body"
    | some data =>
      let ov := data.apiKey
      let query :=
        match data.messages.getLast? with
        | some m => m.content
        | none => data.query
      let result := graph_invoke query st
      let memory_summary :=
        (summarize_history memEnabled (get_key ov envKey) data.messages invokeResult).1
      .ok (.ok result.intent result.mode (shape result.docs result.scores)
            memory_summary, ov)

/-- Embeds `handler` (rag.py lines 169-210): run the `try` body, turn an exception
into the error response, and — the `finally` block — clear `KEY_OVERRIDE`
on every exit path. -/
def handler (method : String) (rawBody : Option Body) (st : Store)
    (ov0 envKey : Option String) (memEnabled : Bool) (invokeResult : Option String) :
    HResp × Option String :=
  match handler_try method rawBody st ov0 envKey memEnabled invokeResult with
  | .ok (resp, _) => (resp, none)
  | .error e => (.err e, none)

lemma classify_intent_nil : classify_intent [] = "general" := by decide

lemma summarize_history_nil_messages (enabled : Bool) (key : Option String)
    (invokeResult : Option String) :
    (summarize_history enabled key [] invokeResult).1 = "" := by
  by_cases he : enabled = false <;> simp [summarize_history, he]

-- ----------------------- C8 -----------------------

/-- Claim C8: on every exit path of the request handler — CORS preflight,
success, malformed body, or the error branch — the request-scoped
credential override ends the request cleared to `none`, whatever value it
held before or acquired during the request. -/
theorem key_override_cleared (method : String) (rawBody : Option Body) (st : Store)
    (ov0 envKey : Option String) (memEnabled : Bool) (invokeResult : Option String) :
    (handler method rawBody st ov0 envKey memEnabled invokeResult).2 = none := by
  cases h : handler_try method rawBody st ov0 envKey memEnabled invokeResult with
  | error e => simp [handler, h]
  | ok r => simp [handler, h]

-- ----------------------- C9 -----------------------

/-- Claim C9: `summarize_history` returns the empty string whenever the
feature flag is disabled, the history is empty, no credential is available,
the message count is not divisible by 6, or the summarization call fails;
and the external call is attempted exactly when all four gates pass. -/
theorem summarize_history_gates (enabled : Bool) (key : Option String)
    (messages : List Msg) (invokeResult : Option String) :
    ((enabled = false ∨ messages = [] ∨ key = none ∨ messages.length % 6 ≠ 0 ∨
        invokeResult = none) →
      (summarize_history enabled key messages invokeResult).1 = "") ∧
    ((summarize_history enabled key messages invokeResult).2 = true ↔
      enabled = true ∧ messages ≠ [] ∧ key ≠ none ∧ messages.length % 6 = 0) := by
  by_cases he : enabled = false
  · have : enabled ≠ true := by simp [he]
    simp [summarize_history, he, this]
  · have he' : enabled = true := by revert he; cases enabled <;> simp
    by_cases hm : messages = [] ∨ key = none
    · rcases hm with hm | hm <;> simp [summarize_history, he, he', hm]
    · push_neg at hm
      by_cases h6 : messages.length % 6 ≠ 0
      · simp [summarize_history, he, he', hm.1, hm.2, h6]
      · push_neg at h6
        cases invokeResult with
        | none => simp [summarize_history, he, he', hm.1, hm.2, h6]
        | some out => simp [summarize_history, he, he', hm.1, hm.2, h6]

/-- Witness for C9: with the flag disabled (and every other gate also
failing) the summary is empty and no call is attempted. -/
theorem summarize_history_gates_witness :
    (summarize_history false none [] none).1 = "" ∧
      ((summarize_history false none [] none).2 = true ↔
        (false : Bool) = true ∧ ([] : List Msg) ≠ [] ∧ (none : Option String) ≠ none ∧
          ([] : List Msg).length % 6 = 0) :=
  ⟨(summarize_history_gates false none [] none).1 (Or.inl rfl),
    (summarize_history_gates false none [] none).2⟩

-- ----------------------- C7 -----------------------

/-- Claim C7 (amended): a request whose body has empty `messages` and an
empty (or absent) `query` runs the pipeline with Query = `""`, classifies
it `"general"`, and raises no error — the handler returns the success
response shaped from the pipeline state, with an empty memory summary; and
whenever the selected collections are unavailable or return no candidates
for the empty query, the retrieval result is empty and Mode is `"general"`
(ungrounded). -/
theorem handler_empty_request (st : Store) (apiKey ov0 envKey : Option String)
    (memEnabled : Bool) (invokeResult : Option String) :
    (graph_invoke [] st).query = [] ∧
    (graph_invoke [] st).intent = "general" ∧
    (handler "POST" (some ⟨apiKey, [], []⟩) st ov0 envKey memEnabled invokeResult).1 =
      HResp.ok "general" (graph_invoke [] st).mode
        (shape (graph_invoke [] st).docs (graph_invoke [] st).scores) "" ∧
    ((∀ vs ∈ pools "general" st, (vs.search [] (6 * 2)).getD [] = []) →
      (handler "POST" (some ⟨apiKey, [], []⟩) st ov0 envKey memEnabled
          invokeResult).1 = HResp.ok "general" "general" [] "") := by
  have hresp :
      (handler "POST" (some ⟨apiKey, [], []⟩) st ov0 envKey memEnabled invokeResult).1 =
        HResp.ok "general" (graph_invoke [] st).mode
          (shape (graph_invoke [] st).docs (graph_invoke [] st).scores) "" := by
    simp [handler, handler_try, summarize_history_nil_messages, graph_invoke,
      classify_intent_nil]
  refine ⟨rfl, ?_, hresp, ?_⟩
  · show classify_intent [] = "general"
    exact classify_intent_nil
  · intro h
    have hret : retrieve [] "general" 6 st = ([], []) :=
      retrieve_eq_nil_of_searches_nil [] "general" 6 st h
    rw [hresp]
    have hdocs : (graph_invoke [] st).docs = [] := by
      simp [graph_invoke, classify_intent_nil, hret]
    have hscores : (graph_invoke [] st).scores = [] := by
      simp [graph_invoke, classify_intent_nil, hret]
    have hmode : (graph_invoke [] st).mode = "general" := by
      simp [graph_invoke, classify_intent_nil, hret, decide_mode_nil]
    rw [hdocs, hscores, hmode]
    rfl

/-- Witness for C7 at the concrete store with both collections loaded but
every search raising. -/
theorem handler_empty_request_witness :
    (graph_invoke [] stFail).query = [] ∧
    (graph_invoke [] stFail).intent = "general" ∧
    (handler "POST" (some ⟨none, [], []⟩) stFail none none false none).1 =
      HResp.ok "general" (graph_invoke [] stFail).mode
        (shape (graph_invoke [] stFail).docs (graph_invoke [] stFail).scores) "" ∧
    ((∀ vs ∈ pools "general" stFail, (vs.search [] (6 * 2)).getD [] = []) →
      (handler "POST" (some ⟨none, [], []⟩) stFail none none false none).1 =
        HResp.ok "general" "general" [] "") :=
  handler_empty_request stFail none none none false none

/-- A collection returning one 0-distance candidate for every query. -/
def vsHit : VS := ⟨fun _ _ => some [(docA, 0)]⟩

/-- A store holding only the topic-B collection `vsHit`. -/
def stHit : Store := ⟨none, some vsHit⟩

/-- Claim C7 counterexample: with the topic-B collection available and
returning a 0-distance candidate for the empty query, the empty-messages,
empty-query request produces a non-empty retrieval result with score 1 and
mode `"rag"` (grounded) — not the empty RetrievalResult and ungrounded mode
the claim asserts for every such request. -/
theorem handler_empty_request_cex :
    (handler "POST" (some ⟨none, [], []⟩) stHit none none false none).1 =
      HResp.ok "general" "rag" [⟨1, "a".toList, "srcA", "", 1⟩] "" := by
  have h1 : retrieve [] "general" 6 stHit = ([docA], [1]) := by
    norm_num [retrieve, pools, stHit, vsHit, score, List.mergeSort,
      (by decide : ¬ ("general" : String) = "nec"),
      (by decide : ¬ ("general" : String) = "wattmonk")]
  have h2 : decide_mode [1] "general" = "rag" := by
    norm_num [decide_mode, max_s]
  have h3 : graph_invoke [] stHit =
      ⟨[], "general", [docA], [1], "rag"⟩ := by
    simp [graph_invoke, classify_intent_nil, h1, h2]
  simp [handler, handler_try, h3, shape, summarize_history, docA]

end Rag
